import Mathlib

/-!
Verification of the fdooze file-descriptor leak-detection library.

This file gives a shallow embedding, in Lean 4, of the parts of the
fdooze repository (Go) that the verified claims are about:

* the Go string helpers and `strconv` number parsing used by the code,
* the common descriptor base `filedesc` and its fdinfo parser
  `fdFromReader` (filedesc/fd.go),
* the flag decoder `Flags.Names` (filedesc/flags.go),
* the concrete descriptor constructors `NewPathFd`, `NewPipeFd`,
  `NewSocketFd`, `NewAnonInodeFd` and the classifier `new`
  (filedesc/fd.go, fd_path.go, fd_pipe.go, fd_socket.go,
  fd_anon_inode.go),
* the directory scanner `filedescriptors` (filedesc/fd.go),
* the leak matcher `HaveLeakedFds`/`IgnoringFiledescriptors`
  (have_leaked_fds.go, ignoring_fds.go).

Operating-system interaction (procfs reads, readlink, getsockopt,
getsockname, getpeername, pidfd calls, directory enumeration) is made
explicit as environment records whose fields carry the outcome of each
external call; the Go control flow around those calls is translated
verbatim.  Go strings are modelled as lists of characters, Go errors as
an explicit error type, and Go `(value, error)` returns as `Except`.
-/

/-- Model of a Go `error` value.  `syntaxErr`/`rangeErr` stand for the
`strconv` `ErrSyntax`/`ErrRange` numeric errors; `msg` stands for an
`errors.New`/`fmt.Errorf` error with the given message; `osErr` stands
for an operating-system error (procfs, socket and pidfd calls) with an
identifying message. -/
inductive GoError where
  | syntaxErr : GoError
  | rangeErr : GoError
  | msg : String → GoError
  | osErr : String → GoError
deriving DecidableEq, Repr

/-- Go strings, modelled as their character sequences. -/
abbrev Str := List Char

/-- `strings.HasPrefix(s, pfx)`. -/
def goHasPfx : Str → Str → Bool
  | _, [] => true
  | [], _ :: _ => false
  | c :: cs, p :: ps => c == p && goHasPfx cs ps

/-- `strings.TrimPrefix(s, pfx)`: drops `pfx` if it is a prefix,
otherwise returns `s` unchanged. -/
def goTrimPfx (s pfx : Str) : Str :=
  if goHasPfx s pfx then s.drop pfx.length else s

/-- `strings.TrimSuffix(s, sfx)`: drops one trailing copy of `sfx` if
present, otherwise returns `s` unchanged. -/
def goTrimSuffix (s sfx : Str) : Str :=
  if goHasPfx s.reverse sfx.reverse then s.take (s.length - sfx.length) else s

/-- `strings.Trim(s, cutset)`: removes all leading and trailing
characters contained in `cutset`. -/
def goTrim (s cutset : Str) : Str :=
  ((s.dropWhile (cutset.contains ·)).reverse.dropWhile (cutset.contains ·)).reverse

/-- `strings.Index(s, sub)`: position of the first occurrence of `sub`
in `s`, `none` when absent (Go returns `-1`). -/
def goIndex (sub : Str) : Str → Option Nat
  | [] => if goHasPfx [] sub then some 0 else none
  | c :: rest =>
    if goHasPfx (c :: rest) sub then some 0
    else (goIndex sub rest).map (· + 1)

/-- Splits `s` at the first occurrence of the separator character,
returning the parts before and after it, or `none` if the separator
does not occur.  Helper for `goSplitN`. -/
def splitFirst (sep : Char) : Str → Option (Str × Str)
  | [] => none
  | c :: rest =>
    if c = sep then some ([], rest)
    else (splitFirst sep rest).map (fun p => (c :: p.1, p.2))

/-- `strings.SplitN(s, sep, n)` for a single-character separator and
`n > 0`: at most `n` pieces, the last piece kept unsplit. -/
def goSplitN (sep : Char) : Nat → Str → List Str
  | 0, _ => []
  | 1, s => [s]
  | n + 2, s =>
    match splitFirst sep s with
    | none => [s]
    | some (pre, post) => pre :: goSplitN sep (n + 1) post

/-- Value of a digit character in the given base (only numeric digits,
as needed for bases 8 and 10), per `strconv`. -/
def digitVal (base : Nat) (c : Char) : Option Nat :=
  if '0' ≤ c ∧ c ≤ '9' ∧ c.toNat - '0'.toNat < base then some (c.toNat - '0'.toNat)
  else none

/-- Digit-accumulation loop of `strconv.ParseUint`: fails with
`ErrSyntax` on an invalid digit and with `ErrRange` as soon as the
accumulated value exceeds `2^bitSize - 1`. -/
def parseUintLoop (base bitSize : Nat) (acc : Nat) : Str → Except GoError Nat
  | [] => .ok acc
  | c :: rest =>
    match digitVal base c with
    | none => .error .syntaxErr
    | some d =>
      let acc' := acc * base + d
      if acc' > 2 ^ bitSize - 1 then .error .rangeErr
      else parseUintLoop base bitSize acc' rest

/-- `strconv.ParseUint(s, base, bitSize)`: no sign allowed, empty input
is a syntax error. -/
def goParseUint (base bitSize : Nat) (s : Str) : Except GoError Nat :=
  if s = [] then .error .syntaxErr else parseUintLoop base bitSize 0 s

/-- `strconv.ParseInt(s, base, bitSize)`: optional sign, then an
unsigned number; the result must lie in
`[-2^(bitSize-1), 2^(bitSize-1) - 1]`. -/
def goParseInt (base bitSize : Nat) (s : Str) : Except GoError Int :=
  if s = [] then .error .syntaxErr
  else
    let neg : Bool := match s with | '-' :: _ => true | _ => false
    let digits : Str := match s with | '+' :: r => r | '-' :: r => r | r => r
    match goParseUint base bitSize digits with
    | .error .rangeErr => .error .rangeErr
    | .error e => .error e
    | .ok un =>
      if !neg ∧ un ≥ 2 ^ (bitSize - 1) then .error .rangeErr
      else if neg ∧ un > 2 ^ (bitSize - 1) then .error .rangeErr
      else .ok (if neg then -(un : Int) else (un : Int))

/-- `strconv.Atoi(s)`, on a 64-bit platform: `ParseInt(s, 10, 64)`. -/
def goAtoi (s : Str) : Except GoError Int :=
  goParseInt 10 64 s

/-- `math.MaxInt` on a 64-bit platform. -/
def maxInt : Nat := 2 ^ 63 - 1

deriving instance DecidableEq for Except

example : goParseUint 8 64 ("042".toList) = .ok 34 := by decide
example : goParseUint 10 64 ("123".toList) = .ok 123 := by decide
example : goParseUint 10 64 ("12x".toList) = .error .syntaxErr := by decide
example : goParseInt 10 64 ("-1".toList) = .ok (-1) := by decide
example : goAtoi ("17".toList) = .ok 17 := by decide
example : goTrim ("\t 42 \t".toList) ("\t ".toList) = "42".toList := by decide
example : goIndex (":[".toList) ("pipe:[3]".toList) = some 4 := by decide
example : goTrimSuffix ("123]".toList) ("]".toList) = "123".toList := by decide

/-!
## Data model: socket addresses and descriptors

`filedesc/fd_socket.go` stores the local and peer socket names as
`Sockaddr` values wrapping the `golang.org/x/sys/unix.Sockaddr`
interface, possibly nil; equality between them is `reflect.DeepEqual`,
i.e. structural equality including the concrete address family.  We
model the wrapped interface value as `Option USockaddr` with `none` for
nil, and `DeepEqual` as decidable structural equality.
-/

/-- The concrete `unix.Sockaddr` implementations that `Getsockname` and
`Getpeername` can produce, with their observable fields (ports, raw
address bytes, names, ids as natural numbers). -/
inductive USockaddr where
  | inet4 (port : Int) (addr : List Nat) : USockaddr
  | inet6 (port : Int) (zoneId : Nat) (addr : List Nat) : USockaddr
  | unixSock (name : String) : USockaddr
  | linklayer (protocol : Nat) (ifindex : Int) (hatype : Nat) (pkttype : Nat)
      (halen : Nat) (addr : List Nat) : USockaddr
  | netlink (family : Nat) (pad : Nat) (pid : Nat) (groups : Nat) : USockaddr
  | vm (cid : Nat) (port : Nat) (flags : Nat) : USockaddr
  | xdp (flags : Nat) (ifindex : Nat) (queueId : Nat) (sharedUmemFd : Nat) : USockaddr
deriving DecidableEq, Repr

/-- The fields shared by every descriptor type: the `filedesc` struct of
filedesc/fd.go (fd number, open flags, mount id). -/
structure Filedesc where
  fd : Int
  flags : Nat
  mntId : Int
deriving DecidableEq, Repr

/-- The closed set of concrete `FileDescriptor` implementations:
`PathFd`, `PipeFd`, `SocketFd` (fields in struct order: inode, domain,
type, protocol, local, peer, listening) and `AnonInodeFd`. -/
inductive Fd where
  | path (base : Filedesc) (p : Str) : Fd
  | pipe (base : Filedesc) (ino : Nat) : Fd
  | socket (base : Filedesc) (ino : Nat) (domain stype protocol : Int)
      (localAddr peerAddr : Option USockaddr) (listening : Bool) : Fd
  | anonInode (base : Filedesc) (ftype : Str) : Fd
deriving DecidableEq, Repr

/-- `FileDescriptor.Fd()`: the descriptor number of any variant. -/
def Fd.fdNo : Fd → Int
  | .path b _ => b.fd
  | .pipe b _ => b.fd
  | .socket b _ _ _ _ _ _ _ => b.fd
  | .anonInode b _ => b.fd

/-- Discriminates the concrete variant of a descriptor (the dynamic Go
type that the `Equal` implementations type-assert on). -/
def Fd.tag : Fd → Nat
  | .path _ _ => 0
  | .pipe _ _ => 1
  | .socket _ _ _ _ _ _ _ _ => 2
  | .anonInode _ _ => 3

/-- `filedesc.Equal` (filedesc/fd.go): two descriptor bases are equal
iff fd number and mount id match; the flags are deliberately ignored. -/
def filedescEqual (a b : Filedesc) : Bool :=
  a.fd == b.fd && a.mntId == b.mntId

/-- The `Equal` method of the concrete descriptor types.  Each Go
implementation first type-asserts its argument to its own concrete type
(returning false on a different type), then compares the base via
`filedesc.Equal` and its own type-specific fields: the path for
`PathFd`, the inode for `PipeFd`, the tag for `AnonInodeFd`, and
inode/domain/type/protocol/listening plus `reflect.DeepEqual` on the
local and peer addresses for `SocketFd`. -/
def fdEqual : Fd → Fd → Bool
  | .path a p, .path b q => filedescEqual a b && p == q
  | .pipe a i, .pipe b j => filedescEqual a b && i == j
  | .socket a i d t pr l pe li, .socket b i' d' t' pr' l' pe' li' =>
    filedescEqual a b && i == i' && d == d' && t == t' && pr == pr' &&
      li == li' && l == l' && pe == pe'
  | .anonInode a t, .anonInode b u => filedescEqual a b && t == u
  | _, _ => false

/-!
## Common descriptor base: the fdinfo parser

`fdFromReader` (filedesc/fd.go) scans the procfs fdinfo record line by
line.  We model the `bufio.Scanner` input as the list of lines it
delivers, followed by an optional read error (`scanner.Err()`), which
only becomes visible once the scan has consumed all lines without
breaking out early.
-/

/-- Scanning loop of `fdFromReader`: recognizes `flags:` (octal,
rejected above `math.MaxInt`) and `mnt_id:` (decimal, rejected outside
`1..math.MaxInt`); terminates successfully as soon as the `mnt_id`
line is seen; any other line is skipped.  When the lines run out, a
pending read error is reported, otherwise the record is incomplete. -/
def fdScanLoop (f : Filedesc) : List Str → Option GoError → Except GoError Filedesc
  | [], readErr =>
    match readErr with
    | some e => .error e
    | none => .error (.msg "fdFromReader: incomplete fdinfo data")
  | line :: rest, readErr =>
    if goHasPfx line ("pos:".toList) then fdScanLoop f rest readErr
    else if goHasPfx line ("flags:".toList) then
      match goParseUint 8 64 (goTrim (line.drop 6) ("\t ".toList)) with
      | .error e => .error e
      | .ok flags =>
        if flags > maxInt then
          .error (.msg ("fdFromReader: flags outside range: " ++ toString flags))
        else fdScanLoop { f with flags := flags } rest readErr
    else if goHasPfx line ("mnt_id:".toList) then
      match goParseInt 10 64 (goTrim (line.drop 7) ("\t ".toList)) with
      | .error e => .error e
      | .ok mntId =>
        if mntId ≤ 0 ∨ mntId > (maxInt : Int) then
          .error (.msg ("fdFromReader: mnt_id outside range: " ++ toString mntId))
        else .ok { f with mntId := mntId }
    else fdScanLoop f rest readErr

/-- `fdFromReader(fd, r)` (filedesc/fd.go): parses a descriptor base
from the fdinfo record delivered by the reader. -/
def fdFromReader (fd : Int) (lines : List Str) (readErr : Option GoError) :
    Except GoError Filedesc :=
  fdScanLoop { fd := fd, flags := 0, mntId := 0 } lines readErr

example :
    fdFromReader 42 ["pos:\t0".toList, "flags:\t042".toList, "mnt_id:\t123".toList] none
      = .ok { fd := 42, flags := 34, mntId := 123 } := by decide
example :
    fdFromReader 42 ["pos:\t0".toList, "flags:\t042".toList] none
      = .error (.msg "fdFromReader: incomplete fdinfo data") := by decide
example :
    fdFromReader 42 ["flags:\t099".toList] none = .error .syntaxErr := by decide

/-!
## Flag decoder

`Flags.Names` (filedesc/flags.go) turns the open(2) access-mode and
status bitmask into symbolic names.  The numeric values below are the
linux/amd64 values of the `os.O_*`/`syscall.O_*` constants used by the
source.  The Go code collects the single-bit names by ranging over the
`flagNames` map; map iteration order is unspecified in Go, so the list
below fixes one order — all verified claims about `Names` are
membership claims, which do not depend on that order.
-/

def O_ACCMODE : Nat := 3
def O_RDONLY : Nat := 0
def O_WRONLY : Nat := 1
def O_RDWR : Nat := 2
def O_CREAT : Nat := 0o100
def O_EXCL : Nat := 0o200
def O_NOCTTY : Nat := 0o400
def O_TRUNC : Nat := 0o1000
def O_APPEND : Nat := 0o2000
def O_NONBLOCK : Nat := 0o4000
def O_DSYNC : Nat := 0o10000
def O_ASYNC : Nat := 0o20000
def O_DIRECT : Nat := 0o40000
def O_DIRECTORY : Nat := 0o200000
def O_NOFOLLOW : Nat := 0o400000
def O_NOATIME : Nat := 0o1000000
def O_CLOEXEC : Nat := 0o2000000
def O_SYNC : Nat := 0o4010000

/-- `O_TMPFILE = 020000000 | syscall.O_DIRECTORY` (filedesc/flags.go):
a deliberate superset of the plain `O_DIRECTORY` bit. -/
def O_TMPFILE : Nat := 0o20000000 ||| O_DIRECTORY

/-- The `flagNames` map of filedesc/flags.go: the independently defined
single-bit flags and their names. -/
def flagNames : List (Nat × String) :=
  [(O_APPEND, "O_APPEND"),
   (O_ASYNC, "O_ASYNC"),
   (O_CLOEXEC, "O_CLOEXEC"),
   (O_CREAT, "O_CREAT(E)"),
   (O_DIRECT, "O_DIRECT"),
   (O_EXCL, "O_EXCL"),
   (O_NOATIME, "O_NOATIME"),
   (O_NOCTTY, "O_NOCTTY"),
   (O_NOFOLLOW, "O_NOFOLLOW"),
   (O_NONBLOCK, "O_NONBLOCK"),
   (O_TRUNC, "O_TRUNC")]

/-- First step of `Flags.Names`: the two-bit `O_ACCMODE` enumeration
field is mapped to one of three names, with a numeric fallback for the
reserved combination. -/
def accessModeName (f : Nat) : String :=
  match f &&& O_ACCMODE with
  | 0 => "O_RDONLY"
  | 1 => "O_WRONLY"
  | 2 => "O_RDWR"
  | m => "access mode " ++ toString m

/-- Second step of `Flags.Names`: every single-bit flag whose bit
pattern is fully contained in `f` contributes its name. -/
def singleBitNames (f : Nat) : List String :=
  flagNames.filterMap (fun p => if f &&& p.1 = p.1 then some p.2 else none)

/-- Third step of `Flags.Names`: the `O_TMPFILE`/`O_DIRECTORY` special
case, decided by exact match of the `O_TMPFILE` subfield (Go `switch`
on `int(f) & O_TMPFILE`). -/
def tmpDirNames (f : Nat) : List String :=
  if f &&& O_TMPFILE = O_DIRECTORY then ["O_DIRECTORY"]
  else if f &&& O_TMPFILE = O_TMPFILE then ["O_TMPFILE"]
  else []

/-- Fourth step of `Flags.Names`: the `O_DSYNC`/`O_SYNC` special case,
decided by exact match of the `O_SYNC` subfield (Go `switch` on
`int(f) & syscall.O_SYNC`). -/
def syncNames (f : Nat) : List String :=
  if f &&& O_SYNC = O_DSYNC then ["O_DSYNC"]
  else if f &&& O_SYNC = O_SYNC then ["O_SYNC"]
  else []

/-- `Flags.Names` (filedesc/flags.go): access-mode name, then the set
single-bit flags, then the two overlapping multi-bit special cases. -/
def flagsNames (f : Nat) : List String :=
  accessModeName f :: singleBitNames f ++ tmpDirNames f ++ syncNames f

example : flagsNames (O_WRONLY ||| O_TMPFILE) = ["O_WRONLY", "O_TMPFILE"] := by decide
example : flagsNames (O_WRONLY ||| O_DIRECTORY) = ["O_WRONLY", "O_DIRECTORY"] := by decide
example : flagsNames (O_WRONLY ||| O_DSYNC) = ["O_WRONLY", "O_DSYNC"] := by decide
example : flagsNames (O_WRONLY ||| O_SYNC) = ["O_WRONLY", "O_SYNC"] := by decide
example : flagsNames (O_WRONLY ||| O_CLOEXEC ||| O_NOATIME)
    = ["O_WRONLY", "O_CLOEXEC", "O_NOATIME"] := by decide

/-!
## Descriptor constructors and the type classifier

Each constructor loads the shared base by opening and parsing the
descriptor's fdinfo record; `NewSocketFd` additionally issues
getsockopt/getsockname/getpeername calls (and, for a foreign process, a
pidfd indirection).  `ProcEnv` carries the outcome of each of those
external calls for the descriptor under construction.
-/

/-- Outcomes of the operating-system calls made while constructing one
descriptor: the fdinfo record (scanned lines plus an optional pending
read error) behind `newFiledesc`, the `unix.GetsockoptInt`,
`unix.Getsockname` and `unix.Getpeername` calls, and the
`unix.PidfdOpen`/`unix.PidfdGetfd` indirection used for foreign
processes. -/
structure ProcEnv where
  fdinfo : Except GoError (List Str × Option GoError)
  getsockopt : Int → Int → Int → Except GoError Int
  getname : Int → Except GoError USockaddr
  getpeer : Int → Except GoError USockaddr
  pidfdOpen : Int → Except GoError Int
  pidfdGetfd : Int → Int → Except GoError Int

def SOL_SOCKET : Int := 1
def SO_ACCEPTCONN : Int := 30
def SO_TYPE : Int := 3
def SO_DOMAIN : Int := 39
def SO_PROTOCOL : Int := 38

/-- `newFiledesc(fd, base)` (filedesc/fd.go): opens the fdinfo record
of the descriptor and parses it with `fdFromReader`. -/
def newFiledesc (env : ProcEnv) (fd : Int) : Except GoError Filedesc :=
  match env.fdinfo with
  | .error e => .error e
  | .ok (lines, readErr) => fdFromReader fd lines readErr

/-- The `anon_inode:` prefix dispatched on by the classifier. -/
def anonInodePfx : Str := "anon_inode:".toList

/-- `NewAnonInodeFd` (filedesc/fd_anon_inode.go): loads the base, then
keeps the link target with the `anon_inode:` prefix and any enclosing
square brackets stripped as the file-type tag. -/
def NewAnonInodeFd (env : ProcEnv) (fdNo : Int) (_base linkDest : Str) :
    Except GoError Fd :=
  match newFiledesc env fdNo with
  | .error e => .error e
  | .ok fdesc => .ok (.anonInode fdesc (goTrim (linkDest.drop anonInodePfx.length) ("[]".toList)))

/-- `NewPipeFd` (filedesc/fd_pipe.go): parses the inode from the
`pipe:[N]` link target (unsigned 64-bit decimal), then loads the
base. -/
def NewPipeFd (env : ProcEnv) (fdNo : Int) (_base linkDest : Str) :
    Except GoError Fd :=
  match goParseUint 10 64 (goTrimSuffix (goTrimPfx linkDest ("pipe:[".toList)) ("]".toList)) with
  | .error e => .error e
  | .ok ino =>
    match newFiledesc env fdNo with
    | .error e => .error e
    | .ok fdesc => .ok (.pipe fdesc ino)

/-- `NewPathFd` (filedesc/fd_path.go): loads the base and stores the
link target verbatim as the path. -/
def NewPathFd (env : ProcEnv) (fdNo : Int) (_base linkDest : Str) :
    Except GoError Fd :=
  match newFiledesc env fdNo with
  | .error e => .error e
  | .ok fdesc => .ok (.path fdesc linkDest)

/-- The pidfd indirection of `NewSocketFd` (filedesc/fd_socket.go):
for a base outside `/proc/self/`, the foreign process's fd is
duplicated locally via `PidfdOpen`/`PidfdGetfd`; otherwise the fd
number is usable as-is. -/
def useableFdFor (env : ProcEnv) (fdNo : Int) (base : Str) : Except GoError Int :=
  if goHasPfx base ("/proc/self/".toList) then .ok fdNo
  else
    let fields := goSplitN '/' 4 base
    if fields.length < 4 then
      .error (.msg ("invalid fd base \"" ++ String.mk base ++ "\""))
    else
      match goAtoi (fields.getD 2 []) with
      | .error e => .error e
      | .ok pid =>
        match env.pidfdOpen pid with
        | .error e => .error e
        | .ok pidFd =>
          match env.pidfdGetfd pidFd fdNo with
          | .error e => .error e
          | .ok fd => .ok fd

/-- `NewSocketFd` (filedesc/fd_socket.go): parses the inode from the
`socket:[N]` link target, loads the base, obtains a usable fd, then
queries the socket parameters.  Domain, type and protocol retrieval
must succeed; the listening-state query and the two name queries are
best-effort — their errors are discarded and the fields keep their
zero/absent values (`listening = 0`, nil addresses). -/
def NewSocketFd (env : ProcEnv) (fdNo : Int) (base linkDest : Str) :
    Except GoError Fd :=
  match goParseUint 10 64 (goTrimSuffix (goTrimPfx linkDest ("socket:[".toList)) ("]".toList)) with
  | .error e => .error e
  | .ok ino =>
    match newFiledesc env fdNo with
    | .error e => .error e
    | .ok fdesc =>
      match useableFdFor env fdNo base with
      | .error e => .error e
      | .ok useableFd =>
        match env.getsockopt useableFd SOL_SOCKET SO_DOMAIN with
        | .error e => .error e
        | .ok domain =>
          match env.getsockopt useableFd SOL_SOCKET SO_TYPE with
          | .error e => .error e
          | .ok stype =>
            match env.getsockopt useableFd SOL_SOCKET SO_PROTOCOL with
            | .error e => .error e
            | .ok protocol =>
              let listening : Int :=
                match env.getsockopt useableFd SOL_SOCKET SO_ACCEPTCONN with
                | .ok v => v
                | .error _ => 0
              let localAddr : Option USockaddr :=
                match env.getname useableFd with
                | .ok sa => some sa
                | .error _ => none
              let peerAddr : Option USockaddr :=
                match env.getpeer useableFd with
                | .ok sa => some sa
                | .error _ => none
              .ok (.socket fdesc ino domain stype protocol localAddr peerAddr
                (decide (0 < listening)))

/-- The `fdTypeFactories` registry of filedesc/fd.go, mapping the
`type` of a `type:[inode]` link target to its constructor. -/
def fdTypeFactories (key : Str) :
    Option (ProcEnv → Int → Str → Str → Except GoError Fd) :=
  if key = "pipe".toList then some NewPipeFd
  else if key = "socket".toList then some NewSocketFd
  else none

/-- The classifier `new(fd, link)` of filedesc/fd.go: anonymous-inode
prefix first; then a `type:[inode]` link whose type is registered in
`fdTypeFactories` (the delimiter must start after position 1); then the
fallback to a plain filesystem path. -/
def fdNew (env : ProcEnv) (fd : Int) (base link : Str) : Except GoError Fd :=
  if goHasPfx link anonInodePfx then NewAnonInodeFd env fd base link
  else
    match goIndex (":[".toList) link with
    | some delim =>
      if delim > 1 then
        match fdTypeFactories (link.take delim) with
        | some factory => factory env fd base link
        | none => NewPathFd env fd base link
      else NewPathFd env fd base link
    | none => NewPathFd env fd base link

/-!
## Directory scanner

`filedescriptors(fdDirPath)` (filedesc/fd.go) opens the process's fd
directory, reads all entries and constructs a descriptor for every
entry whose name parses as a number, skipping the directory's own fd
and every entry whose construction fails.  `ScanEnv` carries the
outcome of the directory open (the handle's own fd number and the
outcome of `ReadDir`) and, for each enumerated fd number, the outcome
of `newWithBase` (readlink plus classification plus fdinfo load).
-/

/-- The opened fd directory: its own descriptor number and the outcome
of `ReadDir(-1)` on it. -/
structure DirHandle where
  dirFd : Int
  entries : Except GoError (List Str)

/-- Outcomes of the scanner's external calls: the directory open and
the per-entry `newWithBase` construction. -/
structure ScanEnv where
  openDir : Except GoError DirHandle
  construct : Int → Except GoError Fd

/-- The entry loop of `filedescriptors`: names that do not parse with
`strconv.Atoi`, the scanner's own directory fd, and entries whose
construction fails are skipped; everything else is collected in
enumeration order. -/
def scanEntries (dirFd : Int) (construct : Int → Except GoError Fd)
    (names : List Str) : List Fd :=
  names.filterMap (fun name =>
    match goAtoi name with
    | .error _ => none
    | .ok fd =>
      if fd = dirFd then none
      else
        match construct fd with
        | .error _ => none
        | .ok fdesc => some fdesc)

/-- `filedescriptors(fdDirPath)` (filedesc/fd.go): directory-open or
directory-read failure is returned as the scan error; otherwise the
surviving constructed descriptors are returned. -/
def filedescriptors (env : ScanEnv) : Except GoError (List Fd) :=
  match env.openDir with
  | .error e => .error e
  | .ok dir =>
    match dir.entries with
    | .error e => .error e
    | .ok names => .ok (scanEntries dir.dirFd env.construct names)

/-!
## Leak matcher

`HaveLeakedFds(fds, ignoring...)` (have_leaked_fds.go) prepends
`IgnoringFiledescriptors(fds)` to the user-supplied exclusion matchers
and reports a leak when some actual descriptor passes no filter.  A
user-supplied Gomega matcher is modelled as a function from a
descriptor to `Except GoError Bool` (its `Match` method applied to a
`FileDescriptor` value).
-/

/-- An exclusion matcher, as invoked by the leak matcher on
`FileDescriptor` values. -/
abbrev FdMatcher := Fd → Except GoError Bool

/-- The index built by `IgnoringFiledescriptors(fds)`
(ignoring_fds.go): a Go map keyed by fd number, assigned in slice
order so that a later descriptor overwrites an earlier one with the
same fd number.  The map is modelled as an association list with the
most recent assignment first, looked up with `List.lookup`. -/
def ignoreFdsIndex (fds : List Fd) : List (Int × Fd) :=
  fds.foldl (fun m fd => (fd.fdNo, fd) :: m) []

/-- `ignoringFds.Match(actual)` (ignoring_fds.go) on a
`FileDescriptor` value: not contained if the fd number is absent from
the index, otherwise decided by `actualFd.Equal` against the indexed
descriptor.  (The Go type-assertion failure branch cannot fire here
because the leak matcher only passes `FileDescriptor` values.) -/
def ignoringFdsMatch (index : List (Int × Fd)) (actualFd : Fd) : Except GoError Bool :=
  match index.lookup actualFd.fdNo with
  | none => .ok false
  | some fd => .ok (fdEqual actualFd fd)

/-- The filter chain of `HaveLeakedFds(fds, ignoring...)`:
`IgnoringFiledescriptors(fds)` first, then the user-supplied
matchers. -/
def leakFilters (baseline : List Fd) (ignoring : List FdMatcher) : List FdMatcher :=
  ignoringFdsMatch (ignoreFdsIndex baseline) :: ignoring

/-- The inner filter loop of `haveLeakedFdsMatcher.Match`: the first
filter error aborts, the first filter success marks the descriptor as
not leaked, and a descriptor passing no filter is leaked. -/
def matchFd (filters : List FdMatcher) (fd : Fd) : Except GoError Bool :=
  match filters with
  | [] => .ok false
  | flt :: rest =>
    match flt fd with
    | .error e => .error e
    | .ok true => .ok true
    | .ok false => matchFd rest fd

/-- The outer loop of `haveLeakedFdsMatcher.Match`: collects, in order,
the actual descriptors that pass no filter; a filter error aborts the
whole match. -/
def collectLeaked (filters : List FdMatcher) : List Fd → Except GoError (List Fd)
  | [] => .ok []
  | fd :: rest =>
    match matchFd filters fd with
    | .error e => .error e
    | .ok true => collectLeaked filters rest
    | .ok false =>
      match collectLeaked filters rest with
      | .error e => .error e
      | .ok leaked => .ok (fd :: leaked)

/-- `haveLeakedFdsMatcher.Match` (have_leaked_fds.go) applied to an
actual list of descriptors, for the matcher built by
`HaveLeakedFds(baseline, ignoring...)`: succeeds (first component)
exactly when the list of leaked descriptors (second component) is
non-empty. -/
def haveLeakedFdsMatch (baseline : List Fd) (ignoring : List FdMatcher)
    (actualFds : List Fd) : Except GoError (Bool × List Fd) :=
  match collectLeaked (leakFilters baseline ignoring) actualFds with
  | .error e => .error e
  | .ok leaked => .ok (!leaked.isEmpty, leaked)

/-!
## Concrete sample environment

A small procfs environment used to evaluate the theorems below on
concrete inputs: a well-formed fdinfo record, socket option queries
that succeed for domain/type/protocol and fail for the listening-state
query, and name queries that fail.
-/

/-- A well-formed fdinfo record: flags `02` (octal), mount id 33. -/
def exFdinfoLines : List Str :=
  ["pos:\t0".toList, "flags:\t02".toList, "mnt_id:\t33".toList]

/-- Sample construction environment (see `exFdinfoLines`). -/
def exEnv : ProcEnv where
  fdinfo := .ok (exFdinfoLines, none)
  getsockopt := fun _ _ opt =>
    if opt = SO_DOMAIN then .ok 1
    else if opt = SO_TYPE then .ok 1
    else if opt = SO_PROTOCOL then .ok 0
    else .error (.osErr "getsockopt SO_ACCEPTCONN")
  getname := fun _ => .error (.osErr "getsockname")
  getpeer := fun _ => .error (.osErr "getpeername")
  pidfdOpen := fun _ => .error (.osErr "pidfd_open")
  pidfdGetfd := fun _ _ => .error (.osErr "pidfd_getfd")

/-- The descriptor base that `exEnv` yields for fd 7. -/
def exFdesc : Filedesc := { fd := 7, flags := 2, mntId := 33 }

example : newFiledesc exEnv 7 = .ok exFdesc := by decide

/-- The self-scan procfs base path. -/
def selfBase : Str := "/proc/self/fd".toList

/-!
## Flag decoder lemmas (claim C5)
-/

/-- The access-mode field yields one of exactly four strings. -/
theorem accessModeName_cases (f : Nat) :
    accessModeName f = "O_RDONLY" ∨ accessModeName f = "O_WRONLY" ∨
    accessModeName f = "O_RDWR" ∨ accessModeName f = "access mode 3" := by
  have hle : f &&& O_ACCMODE ≤ 3 := by
    have := Nat.and_le_right (n := f) (m := O_ACCMODE)
    simpa [O_ACCMODE] using this
  unfold accessModeName
  rcases e : f &&& O_ACCMODE with _ | n
  · simp
  · rcases n with _ | n
    · simp
    · rcases n with _ | n
      · simp
      · rcases n with _ | n
        · exact Or.inr (Or.inr (Or.inr (by decide)))
        · rw [e] at hle; omega

/-- Every name produced by the single-bit loop is a value of the
`flagNames` map. -/
theorem singleBitNames_sub (f : Nat) (s : String) (h : s ∈ singleBitNames f) :
    s ∈ flagNames.map Prod.snd := by
  simp only [singleBitNames, List.mem_filterMap] at h
  obtain ⟨p, hp, hif⟩ := h
  simp only [List.mem_map]
  by_cases hc : f &&& p.1 = p.1
  · simp [hc] at hif; exact ⟨p, hp, hif⟩
  · simp [hc] at hif

/-- Every name produced by the temp-file/directory special case is one
of its two names. -/
theorem tmpDirNames_sub (f : Nat) (s : String) (h : s ∈ tmpDirNames f) :
    s = "O_DIRECTORY" ∨ s = "O_TMPFILE" := by
  unfold tmpDirNames at h
  split at h
  · simp at h; exact Or.inl h
  · split at h
    · simp at h; exact Or.inr h
    · simp at h

/-- Every name produced by the sync special case is one of its two
names. -/
theorem syncNames_sub (f : Nat) (s : String) (h : s ∈ syncNames f) :
    s = "O_DSYNC" ∨ s = "O_SYNC" := by
  unfold syncNames at h
  split at h
  · simp at h; exact Or.inl h
  · split at h
    · simp at h; exact Or.inr h
    · simp at h

/-- C5: For every flags bitmask, the decoded name list contains
"O_TMPFILE" exactly when the bitmask masked with the `O_TMPFILE`
pattern equals the full pattern, contains "O_DIRECTORY" exactly when
that subfield equals only the directory bit, and never both; likewise
it contains "O_SYNC" exactly when the `O_SYNC` subfield equals the
full pattern and "O_DSYNC" exactly when that subfield equals the
smaller `O_DSYNC` pattern, never both. -/
theorem flags_decoder_oddball_exclusivity (f : Nat) :
    ("O_TMPFILE" ∈ flagsNames f ↔ f &&& O_TMPFILE = O_TMPFILE) ∧
    ("O_DIRECTORY" ∈ flagsNames f ↔ f &&& O_TMPFILE = O_DIRECTORY) ∧
    ¬("O_TMPFILE" ∈ flagsNames f ∧ "O_DIRECTORY" ∈ flagsNames f) ∧
    ("O_SYNC" ∈ flagsNames f ↔ f &&& O_SYNC = O_SYNC) ∧
    ("O_DSYNC" ∈ flagsNames f ↔ f &&& O_SYNC = O_DSYNC) ∧
    ¬("O_SYNC" ∈ flagsNames f ∧ "O_DSYNC" ∈ flagsNames f) := by
  have hmem : ∀ s : String, s ∈ flagsNames f ↔
      s = accessModeName f ∨ s ∈ singleBitNames f ∨ s ∈ tmpDirNames f ∨ s ∈ syncNames f := by
    intro s
    simp [flagsNames, List.mem_cons, List.mem_append, or_assoc]
  have haccne : ∀ s : String,
      s = "O_TMPFILE" ∨ s = "O_DIRECTORY" ∨ s = "O_SYNC" ∨ s = "O_DSYNC" →
      s ≠ accessModeName f := by
    intro s hs
    rcases accessModeName_cases f with h | h | h | h <;> rw [h] <;>
      rcases hs with rfl | rfl | rfl | rfl <;> decide
  have hsingle : ∀ s : String,
      s = "O_TMPFILE" ∨ s = "O_DIRECTORY" ∨ s = "O_SYNC" ∨ s = "O_DSYNC" →
      s ∉ singleBitNames f := by
    intro s hs hmem'
    have hv := singleBitNames_sub f s hmem'
    rcases hs with rfl | rfl | rfl | rfl <;> revert hv <;> decide
  have htmpd : ∀ s : String, s = "O_SYNC" ∨ s = "O_DSYNC" → s ∉ tmpDirNames f := by
    intro s hs hmem'
    rcases tmpDirNames_sub f s hmem' with h | h <;> rcases hs with rfl | rfl <;>
      simp at h
  have hsyncd : ∀ s : String, s = "O_TMPFILE" ∨ s = "O_DIRECTORY" → s ∉ syncNames f := by
    intro s hs hmem'
    rcases syncNames_sub f s hmem' with h | h <;> rcases hs with rfl | rfl <;>
      simp at h
  have htmp : ("O_TMPFILE" ∈ flagsNames f ↔ f &&& O_TMPFILE = O_TMPFILE) := by
    rw [hmem]
    have h1 := haccne "O_TMPFILE" (by simp)
    have h2 := hsingle "O_TMPFILE" (by simp)
    have h3 := hsyncd "O_TMPFILE" (by simp)
    simp only [h1, h2, h3, or_false, false_or, iff_false, eq_self_iff_true]
    unfold tmpDirNames
    by_cases hc1 : f &&& O_TMPFILE = O_DIRECTORY
    · have : ¬(f &&& O_TMPFILE = O_TMPFILE) := by rw [hc1]; decide
      simp [hc1, this]
      decide
    · by_cases hc2 : f &&& O_TMPFILE = O_TMPFILE
      · simp [hc1, hc2]
        decide
      · simp [hc1, hc2]
  have hdir : ("O_DIRECTORY" ∈ flagsNames f ↔ f &&& O_TMPFILE = O_DIRECTORY) := by
    rw [hmem]
    have h1 := haccne "O_DIRECTORY" (by simp)
    have h2 := hsingle "O_DIRECTORY" (by simp)
    have h3 := hsyncd "O_DIRECTORY" (by simp)
    simp only [h1, h2, h3, or_false, false_or, iff_false, eq_self_iff_true]
    unfold tmpDirNames
    by_cases hc1 : f &&& O_TMPFILE = O_DIRECTORY
    · simp [hc1]
    · by_cases hc2 : f &&& O_TMPFILE = O_TMPFILE
      · have : ¬(f &&& O_TMPFILE = O_DIRECTORY) := by rw [hc2]; decide
        simp [hc1, hc2, this]
        decide
      · simp [hc1, hc2]
  have hsyn : ("O_SYNC" ∈ flagsNames f ↔ f &&& O_SYNC = O_SYNC) := by
    rw [hmem]
    have h1 := haccne "O_SYNC" (by simp)
    have h2 := hsingle "O_SYNC" (by simp)
    have h3 := htmpd "O_SYNC" (by simp)
    simp only [h1, h2, h3, or_false, false_or, iff_false, eq_self_iff_true]
    unfold syncNames
    by_cases hc1 : f &&& O_SYNC = O_DSYNC
    · have : ¬(f &&& O_SYNC = O_SYNC) := by rw [hc1]; decide
      simp [hc1, this]
      decide
    · by_cases hc2 : f &&& O_SYNC = O_SYNC
      · simp [hc1, hc2]
        decide
      · simp [hc1, hc2]
  have hdsyn : ("O_DSYNC" ∈ flagsNames f ↔ f &&& O_SYNC = O_DSYNC) := by
    rw [hmem]
    have h1 := haccne "O_DSYNC" (by simp)
    have h2 := hsingle "O_DSYNC" (by simp)
    have h3 := htmpd "O_DSYNC" (by simp)
    simp only [h1, h2, h3, or_false, false_or, iff_false, eq_self_iff_true]
    unfold syncNames
    by_cases hc1 : f &&& O_SYNC = O_DSYNC
    · simp [hc1]
    · by_cases hc2 : f &&& O_SYNC = O_SYNC
      · have : ¬(f &&& O_SYNC = O_DSYNC) := by rw [hc2]; decide
        simp [hc1, hc2, this]
        decide
      · simp [hc1, hc2]
  refine ⟨htmp, hdir, ?_, hsyn, hdsyn, ?_⟩
  · rintro ⟨ht, hd⟩
    rw [htmp] at ht
    rw [hdir] at hd
    rw [ht] at hd
    revert hd; decide
  · rintro ⟨ht, hd⟩
    rw [hsyn] at ht
    rw [hdsyn] at hd
    rw [ht] at hd
    revert hd; decide

/-- Witness for C5: concrete flag values exercising both special
cases. -/
theorem flags_decoder_oddball_witness :
    "O_TMPFILE" ∈ flagsNames 4259841 ∧ "O_DSYNC" ∈ flagsNames 4097 :=
  ⟨(flags_decoder_oddball_exclusivity 4259841).1.mpr (by decide),
   (flags_decoder_oddball_exclusivity 4097).2.2.2.2.1.mpr (by decide)⟩

/-!
## Descriptor equality (claims C2 and C9)
-/

/-- C2: For every two constructed descriptors of the same concrete
variant, `Equal` returns true when their fd number, mount id and all
type-specific discriminating fields coincide even if the status flags
differ, and returns false when any type-specific field differs while
fd number and mount id are held fixed. -/
theorem fdEqual_flags_irrelevant_fields_discriminate :
    (∀ (n m : Int) (f g : Nat) (p : Str),
      fdEqual (.path ⟨n, f, m⟩ p) (.path ⟨n, g, m⟩ p) = true) ∧
    (∀ (n m : Int) (f g : Nat) (i : Nat),
      fdEqual (.pipe ⟨n, f, m⟩ i) (.pipe ⟨n, g, m⟩ i) = true) ∧
    (∀ (n m : Int) (f g : Nat) (t : Str),
      fdEqual (.anonInode ⟨n, f, m⟩ t) (.anonInode ⟨n, g, m⟩ t) = true) ∧
    (∀ (n m : Int) (f g : Nat) (i : Nat) (dom st pr : Int)
        (la pa : Option USockaddr) (li : Bool),
      fdEqual (.socket ⟨n, f, m⟩ i dom st pr la pa li)
        (.socket ⟨n, g, m⟩ i dom st pr la pa li) = true) ∧
    (∀ (n m : Int) (f g : Nat) (p q : Str), p ≠ q →
      fdEqual (.path ⟨n, f, m⟩ p) (.path ⟨n, g, m⟩ q) = false) ∧
    (∀ (n m : Int) (f g : Nat) (i j : Nat), i ≠ j →
      fdEqual (.pipe ⟨n, f, m⟩ i) (.pipe ⟨n, g, m⟩ j) = false) ∧
    (∀ (n m : Int) (f g : Nat) (t u : Str), t ≠ u →
      fdEqual (.anonInode ⟨n, f, m⟩ t) (.anonInode ⟨n, g, m⟩ u) = false) ∧
    (∀ (n m : Int) (f g : Nat) (i i' : Nat) (dom dom' st st' pr pr' : Int)
        (la la' pa pa' : Option USockaddr) (li li' : Bool),
      i ≠ i' ∨ dom ≠ dom' ∨ st ≠ st' ∨ pr ≠ pr' ∨ la ≠ la' ∨ pa ≠ pa' ∨ li ≠ li' →
      fdEqual (.socket ⟨n, f, m⟩ i dom st pr la pa li)
        (.socket ⟨n, g, m⟩ i' dom' st' pr' la' pa' li') = false) := by
  refine ⟨?_, ?_, ?_, ?_, ?_, ?_, ?_, ?_⟩
  · intro n m f g p; simp [fdEqual, filedescEqual]
  · intro n m f g i; simp [fdEqual, filedescEqual]
  · intro n m f g t; simp [fdEqual, filedescEqual]
  · intro n m f g i dom st pr la pa li; simp [fdEqual, filedescEqual]
  · intro n m f g p q h; simp [fdEqual, filedescEqual, h]
  · intro n m f g i j h; simp [fdEqual, filedescEqual, h]
  · intro n m f g t u h; simp [fdEqual, filedescEqual, h]
  · intro n m f g i i' dom dom' st st' pr pr' la la' pa pa' li li' h
    rcases h with h | h | h | h | h | h | h <;> simp [fdEqual, filedescEqual, h]

/-- Witness for C2: a pipe descriptor compared with flag churn only,
and with a changed inode. -/
theorem fdEqual_flags_irrelevant_witness :
    fdEqual (.pipe ⟨3, 0, 21⟩ 500) (.pipe ⟨3, 77, 21⟩ 500) = true ∧
    fdEqual (.pipe ⟨3, 0, 21⟩ 500) (.pipe ⟨3, 0, 21⟩ 501) = false :=
  ⟨fdEqual_flags_irrelevant_fields_discriminate.2.1 3 21 0 77 500,
   fdEqual_flags_irrelevant_fields_discriminate.2.2.2.2.2.1 3 21 0 0 500 501
     (by decide)⟩

/-- C9: For every pair of constructed descriptors of different
concrete variants, `Equal` returns false regardless of all field
values, because each implementation type-asserts its argument to its
own concrete type. -/
theorem fdEqual_cross_variant_false (a b : Fd) (h : a.tag ≠ b.tag) :
    fdEqual a b = false := by
  cases a <;> cases b <;> first
    | rfl
    | (exfalso; exact h rfl)

/-- Witness for C9: a path descriptor compared with a pipe descriptor
carrying the same fd number and mount id. -/
theorem fdEqual_cross_variant_witness :
    fdEqual (.path ⟨3, 0, 21⟩ []) (.pipe ⟨3, 0, 21⟩ 500) = false :=
  fdEqual_cross_variant_false (.path ⟨3, 0, 21⟩ []) (.pipe ⟨3, 0, 21⟩ 500)
    (by decide)

/-!
## Common descriptor base and the mount id (claim C8)

The current `fdFromReader` rejects any parsed mount id outside
`1 .. math.MaxInt` (and its test suite checks the rejection message),
so a status record carrying `mnt_id: 0` makes construction fail
rather than succeed with mount id 0.
-/

/-- Counterexample to C8: a well-formed status record whose `mnt_id`
line carries the value zero makes `fdFromReader` fail with the
out-of-range error instead of returning a base with mount id 0. -/
theorem fdFromReader_zero_mntid_cex :
    fdFromReader 42 ["pos:\t0".toList, "flags:\t042".toList, "mnt_id:\t0".toList] none
      = .error (.msg "fdFromReader: mnt_id outside range: 0") := by
  decide

/-- C8 (amended): constructing the common descriptor base from a
status record whose `mnt_id` line carries the value zero fails with
the `mnt_id outside range` error — the parser requires a strictly
positive mount id and never returns a base with mount id 0. -/
theorem fdFromReader_rejects_zero_mntid (fd : Int) (rest : List Str)
    (readErr : Option GoError) :
    fdFromReader fd
        ("pos:\t0".toList :: "flags:\t042".toList :: "mnt_id:\t0".toList :: rest)
        readErr
      = .error (.msg "fdFromReader: mnt_id outside range: 0") := by
  rfl

/-!
## Socket construction error asymmetry (claim C3)
-/

/-- C3: During socket descriptor construction (with a parseable inode,
a readable fdinfo record and a self-process base), a failure of the
domain, type or protocol get-socket-option query fails the whole
construction with that error, whereas the listening-state query and
the local/peer name queries are best-effort: whatever their outcome, a
`SocketFd` is returned, with `listening` computed from value 0 on a
failed listening query and with absent addresses on failed name
queries. -/
theorem NewSocketFd_must_succeed_vs_best_effort
    (env : ProcEnv) (fdNo : Int) (base link : Str) (N : Nat) (fdesc : Filedesc)
    (hparse : goParseUint 10 64
        (goTrimSuffix (goTrimPfx link ("socket:[".toList)) ("]".toList)) = .ok N)
    (hbase : newFiledesc env fdNo = .ok fdesc)
    (hself : goHasPfx base ("/proc/self/".toList) = true) :
    (∀ e, env.getsockopt fdNo SOL_SOCKET SO_DOMAIN = .error e →
      NewSocketFd env fdNo base link = .error e) ∧
    (∀ dv e, env.getsockopt fdNo SOL_SOCKET SO_DOMAIN = .ok dv →
      env.getsockopt fdNo SOL_SOCKET SO_TYPE = .error e →
      NewSocketFd env fdNo base link = .error e) ∧
    (∀ dv tv e, env.getsockopt fdNo SOL_SOCKET SO_DOMAIN = .ok dv →
      env.getsockopt fdNo SOL_SOCKET SO_TYPE = .ok tv →
      env.getsockopt fdNo SOL_SOCKET SO_PROTOCOL = .error e →
      NewSocketFd env fdNo base link = .error e) ∧
    (∀ dv tv pv, env.getsockopt fdNo SOL_SOCKET SO_DOMAIN = .ok dv →
      env.getsockopt fdNo SOL_SOCKET SO_TYPE = .ok tv →
      env.getsockopt fdNo SOL_SOCKET SO_PROTOCOL = .ok pv →
      NewSocketFd env fdNo base link = .ok (.socket fdesc N dv tv pv
        (match env.getname fdNo with | .ok sa => some sa | .error _ => none)
        (match env.getpeer fdNo with | .ok sa => some sa | .error _ => none)
        (decide (0 < match env.getsockopt fdNo SOL_SOCKET SO_ACCEPTCONN with
          | .ok v => v | .error _ => 0)))) ∧
    (∀ dv tv pv e1 e2 e3, env.getsockopt fdNo SOL_SOCKET SO_DOMAIN = .ok dv →
      env.getsockopt fdNo SOL_SOCKET SO_TYPE = .ok tv →
      env.getsockopt fdNo SOL_SOCKET SO_PROTOCOL = .ok pv →
      env.getsockopt fdNo SOL_SOCKET SO_ACCEPTCONN = .error e1 →
      env.getname fdNo = .error e2 →
      env.getpeer fdNo = .error e3 →
      NewSocketFd env fdNo base link = .ok (.socket fdesc N dv tv pv none none false)) := by
  have husable : useableFdFor env fdNo base = .ok fdNo := by
    unfold useableFdFor
    rw [hself]
    simp
  refine ⟨?_, ?_, ?_, ?_, ?_⟩
  · intro e hdom
    simp only [NewSocketFd, hparse, hbase, husable, hdom]
  · intro dv e hdom htyp
    simp only [NewSocketFd, hparse, hbase, husable, hdom, htyp]
  · intro dv tv e hdom htyp hpr
    simp only [NewSocketFd, hparse, hbase, husable, hdom, htyp, hpr]
  · intro dv tv pv hdom htyp hpr
    simp only [NewSocketFd, hparse, hbase, husable, hdom, htyp, hpr]
  · intro dv tv pv e1 e2 e3 hdom htyp hpr hacc hname hpeer
    simp only [NewSocketFd, hparse, hbase, husable, hdom, htyp, hpr, hacc, hname, hpeer]
    rfl

/-- A construction environment whose get-socket-option calls all
fail. -/
def exEnvDomErr : ProcEnv :=
  { exEnv with getsockopt := fun _ _ _ => .error (.osErr "getsockopt") }

/-- Witness for C3: with `exEnvDomErr` a failing domain query fails
construction with that error; with `exEnv` the failing
listening/name queries still yield a `SocketFd` with absent
addresses and `listening = false`. -/
theorem NewSocketFd_must_succeed_vs_best_effort_witness :
    NewSocketFd exEnvDomErr 7 selfBase ("socket:[7]".toList)
      = .error (.osErr "getsockopt") ∧
    NewSocketFd exEnv 7 selfBase ("socket:[7]".toList)
      = .ok (.socket exFdesc 7 1 1 0 none none false) :=
  ⟨(NewSocketFd_must_succeed_vs_best_effort exEnvDomErr 7 selfBase
      ("socket:[7]".toList) 7 exFdesc (by decide) (by decide) (by decide)).1
      (.osErr "getsockopt") rfl,
   (NewSocketFd_must_succeed_vs_best_effort exEnv 7 selfBase
      ("socket:[7]".toList) 7 exFdesc (by decide) (by decide) (by decide)).2.2.2.2
      1 1 0 (.osErr "getsockopt SO_ACCEPTCONN") (.osErr "getsockname")
      (.osErr "getpeername") rfl rfl rfl rfl rfl rfl⟩

/-!
## Classifier lemmas and claim C4
-/

theorem goHasPfx_nil (s : Str) : goHasPfx s [] = true := by
  cases s <;> rfl

/-- A string extended on the right keeps itself as a prefix. -/
theorem goHasPfx_append (a b : Str) : goHasPfx (a ++ b) a = true := by
  induction a with
  | nil => exact goHasPfx_nil b
  | cons c a' ih => simp [goHasPfx, ih]

/-- `TrimPrefix` drops an actual prefix. -/
theorem goTrimPfx_append (p r : Str) : goTrimPfx (p ++ r) p = r := by
  unfold goTrimPfx
  rw [goHasPfx_append]
  simp

/-- `TrimSuffix` drops an actual suffix. -/
theorem goTrimSuffix_append (r sfx : Str) : goTrimSuffix (r ++ sfx) sfx = r := by
  unfold goTrimSuffix
  rw [List.reverse_append, goHasPfx_append]
  simp

/-- Counterexample to C4: the link target `pipe:[x]` is not of the form
`pipe:[N]` with `N` a valid unsigned decimal, so by the claim it would
have to produce a `PathFd` with exactly that path — but the classifier
dispatches it to the pipe constructor, which fails with the parse
error. -/
theorem fdNew_malformed_inode_cex :
    fdNew exEnv 3 selfBase ("pipe:[x]".toList) = .error .syntaxErr := by
  decide

/-- A mismatching head character refutes a prefix. -/
theorem goHasPfx_cons_false (c p : Char) (s ps : Str) (h : (c == p) = false) :
    goHasPfx (c :: s) (p :: ps) = false := by
  simp [goHasPfx, h]

/-- The first `:[` in a `pipe:[`-prefixed link sits at position 4. -/
theorem goIndex_pipe_link (X : Str) :
    goIndex (":[".toList) ('p' :: 'i' :: 'p' :: 'e' :: ':' :: '[' :: X) = some 4 := by
  rw [show (":[".toList) = ':' :: '[' :: [] from rfl]
  simp [goIndex, goHasPfx, goHasPfx_nil,
    show (('p' : Char) == ':') = false from by decide,
    show (('i' : Char) == ':') = false from by decide,
    show (('e' : Char) == ':') = false from by decide,
    show ((':' : Char) == ':') = true from by decide,
    show (('[' : Char) == '[') = true from by decide]

/-- The first `:[` in a `socket:[`-prefixed link sits at position 6. -/
theorem goIndex_socket_link (X : Str) :
    goIndex (":[".toList) ('s' :: 'o' :: 'c' :: 'k' :: 'e' :: 't' :: ':' :: '[' :: X)
      = some 6 := by
  rw [show (":[".toList) = ':' :: '[' :: [] from rfl]
  simp [goIndex, goHasPfx, goHasPfx_nil,
    show (('s' : Char) == ':') = false from by decide,
    show (('o' : Char) == ':') = false from by decide,
    show (('c' : Char) == ':') = false from by decide,
    show (('k' : Char) == ':') = false from by decide,
    show (('e' : Char) == ':') = false from by decide,
    show (('t' : Char) == ':') = false from by decide,
    show ((':' : Char) == ':') = true from by decide,
    show (('[' : Char) == '[') = true from by decide]

/-- Registry lookup for the key `pipe`. -/
theorem fdTypeFactories_pipe :
    fdTypeFactories (['p', 'i', 'p', 'e'] : Str) = some NewPipeFd := by
  unfold fdTypeFactories
  rw [if_pos (show (['p', 'i', 'p', 'e'] : Str) = "pipe".toList from by decide)]

/-- Registry lookup for the key `socket`. -/
theorem fdTypeFactories_socket :
    fdTypeFactories (['s', 'o', 'c', 'k', 'e', 't'] : Str) = some NewSocketFd := by
  unfold fdTypeFactories
  rw [if_neg (show ¬(['s', 'o', 'c', 'k', 'e', 't'] : Str) = "pipe".toList from by decide)]
  rw [if_pos (show (['s', 'o', 'c', 'k', 'e', 't'] : Str) = "socket".toList from by decide)]

/-- C4 (amended): classification dispatches by priority.  A target with
the anonymous-inode prefix yields an `AnonInodeFd` with the prefix and
enclosing square brackets stripped; `pipe:[N]`/`socket:[N]` with `N` a
valid unsigned 64-bit decimal yield a `PipeFd`/`SocketFd` with inode
`N`; a target that is not anonymous and whose first `:[` delimiter
does not follow a registered type yields a `PathFd` with exactly that
path; and a registered `pipe:[`/`socket:[` target whose inode text is
malformed fails with the parse error instead of producing a
`PathFd`. -/
theorem fdNew_classification (env : ProcEnv) (fd : Int) (base : Str)
    (fdesc : Filedesc) (hbase : newFiledesc env fd = .ok fdesc) :
    (∀ link, goHasPfx link anonInodePfx = true →
      fdNew env fd base link
        = .ok (.anonInode fdesc (goTrim (link.drop anonInodePfx.length) ("[]".toList)))) ∧
    (∀ ds N, goParseUint 10 64 ds = .ok N →
      fdNew env fd base ("pipe:[".toList ++ ds ++ "]".toList) = .ok (.pipe fdesc N)) ∧
    (∀ ds N dv tv pv, goParseUint 10 64 ds = .ok N →
      goHasPfx base ("/proc/self/".toList) = true →
      env.getsockopt fd SOL_SOCKET SO_DOMAIN = .ok dv →
      env.getsockopt fd SOL_SOCKET SO_TYPE = .ok tv →
      env.getsockopt fd SOL_SOCKET SO_PROTOCOL = .ok pv →
      fdNew env fd base ("socket:[".toList ++ ds ++ "]".toList)
        = .ok (.socket fdesc N dv tv pv
          (match env.getname fd with | .ok sa => some sa | .error _ => none)
          (match env.getpeer fd with | .ok sa => some sa | .error _ => none)
          (decide (0 < match env.getsockopt fd SOL_SOCKET SO_ACCEPTCONN with
            | .ok v => v | .error _ => 0)))) ∧
    (∀ link, goHasPfx link anonInodePfx = false →
      (∀ δ, goIndex (":[".toList) link = some δ → 1 < δ →
        fdTypeFactories (link.take δ) = none) →
      fdNew env fd base link = .ok (.path fdesc link)) ∧
    (∀ s e, goParseUint 10 64 (goTrimSuffix s ("]".toList)) = .error e →
      fdNew env fd base ("pipe:[".toList ++ s) = .error e) ∧
    (∀ s e, goParseUint 10 64 (goTrimSuffix s ("]".toList)) = .error e →
      fdNew env fd base ("socket:[".toList ++ s) = .error e) := by
  have hanonPipe : ∀ X : Str,
      goHasPfx ('p' :: 'i' :: 'p' :: 'e' :: ':' :: '[' :: X) anonInodePfx = false := by
    intro X
    rw [show anonInodePfx = 'a' :: "non_inode:".toList from rfl]
    exact goHasPfx_cons_false _ _ _ _ (by decide)
  have hanonSocket : ∀ X : Str,
      goHasPfx ('s' :: 'o' :: 'c' :: 'k' :: 'e' :: 't' :: ':' :: '[' :: X) anonInodePfx
        = false := by
    intro X
    rw [show anonInodePfx = 'a' :: "non_inode:".toList from rfl]
    exact goHasPfx_cons_false _ _ _ _ (by decide)
  have hpipeDispatch : ∀ X : Str,
      fdNew env fd base ('p' :: 'i' :: 'p' :: 'e' :: ':' :: '[' :: X)
        = NewPipeFd env fd base ('p' :: 'i' :: 'p' :: 'e' :: ':' :: '[' :: X) := by
    intro X
    unfold fdNew
    rw [hanonPipe X]
    simp only [Bool.false_eq_true, if_false, goIndex_pipe_link]
    rw [if_pos (by norm_num : (4 : Nat) > 1)]
    simp only [show List.take 4 ('p' :: 'i' :: 'p' :: 'e' :: ':' :: '[' :: X)
        = (['p', 'i', 'p', 'e'] : Str) from rfl, fdTypeFactories_pipe]
  have hsocketDispatch : ∀ X : Str,
      fdNew env fd base ('s' :: 'o' :: 'c' :: 'k' :: 'e' :: 't' :: ':' :: '[' :: X)
        = NewSocketFd env fd base ('s' :: 'o' :: 'c' :: 'k' :: 'e' :: 't' :: ':' :: '[' :: X) := by
    intro X
    unfold fdNew
    rw [hanonSocket X]
    simp only [Bool.false_eq_true, if_false, goIndex_socket_link]
    rw [if_pos (by norm_num : (6 : Nat) > 1)]
    simp only [show List.take 6 ('s' :: 'o' :: 'c' :: 'k' :: 'e' :: 't' :: ':' :: '[' :: X)
        = (['s', 'o', 'c', 'k', 'e', 't'] : Str) from rfl, fdTypeFactories_socket]
  refine ⟨?_, ?_, ?_, ?_, ?_, ?_⟩
  · intro link hanon
    unfold fdNew
    rw [hanon]
    simp only [if_true]
    unfold NewAnonInodeFd
    rw [hbase]
  · intro ds N hds
    have hlink : ("pipe:[".toList ++ ds ++ "]".toList)
        = 'p' :: 'i' :: 'p' :: 'e' :: ':' :: '[' :: (ds ++ "]".toList) :=
      (List.append_assoc _ _ _).trans rfl
    rw [hlink, hpipeDispatch]
    rw [show ('p' :: 'i' :: 'p' :: 'e' :: ':' :: '[' :: (ds ++ "]".toList))
        = "pipe:[".toList ++ (ds ++ "]".toList) from rfl]
    unfold NewPipeFd
    rw [goTrimPfx_append, goTrimSuffix_append, hds, hbase]
  · intro ds N dv tv pv hds hself hdom htyp hpr
    have husable : useableFdFor env fd base = .ok fd := by
      unfold useableFdFor
      rw [hself]
      simp
    have hlink : ("socket:[".toList ++ ds ++ "]".toList)
        = 's' :: 'o' :: 'c' :: 'k' :: 'e' :: 't' :: ':' :: '[' :: (ds ++ "]".toList) :=
      (List.append_assoc _ _ _).trans rfl
    rw [hlink, hsocketDispatch]
    rw [show ('s' :: 'o' :: 'c' :: 'k' :: 'e' :: 't' :: ':' :: '[' :: (ds ++ "]".toList))
        = "socket:[".toList ++ (ds ++ "]".toList) from rfl]
    unfold NewSocketFd
    rw [goTrimPfx_append, goTrimSuffix_append, hds, hbase]
    simp only [husable, hdom, htyp, hpr]
  · intro link hanon hreg
    unfold fdNew
    rw [hanon]
    simp only [Bool.false_eq_true, if_false]
    cases hidx : goIndex (":[".toList) link with
    | none =>
      unfold NewPathFd
      rw [hbase]
    | some δ =>
      by_cases hδ : δ > 1
      · simp only [hreg δ hidx hδ, if_pos hδ]
        unfold NewPathFd
        rw [hbase]
      · simp only [if_neg hδ]
        unfold NewPathFd
        rw [hbase]
  · intro s e hbad
    have hlink : ("pipe:[".toList ++ s) = 'p' :: 'i' :: 'p' :: 'e' :: ':' :: '[' :: s := rfl
    rw [hlink, hpipeDispatch]
    rw [show ('p' :: 'i' :: 'p' :: 'e' :: ':' :: '[' :: s) = "pipe:[".toList ++ s from rfl]
    unfold NewPipeFd
    rw [goTrimPfx_append, hbad]
  · intro s e hbad
    have hlink : ("socket:[".toList ++ s)
        = 's' :: 'o' :: 'c' :: 'k' :: 'e' :: 't' :: ':' :: '[' :: s := rfl
    rw [hlink, hsocketDispatch]
    rw [show ('s' :: 'o' :: 'c' :: 'k' :: 'e' :: 't' :: ':' :: '[' :: s)
        = "socket:[".toList ++ s from rfl]
    unfold NewSocketFd
    rw [goTrimPfx_append, hbad]

/-- Witness for C4 (amended): concrete classifications of an anonymous
inode target, a pipe target and a plain path target. -/
theorem fdNew_classification_witness :
    fdNew exEnv 7 selfBase ("anon_inode:[eventfd]".toList)
      = .ok (.anonInode exFdesc ("eventfd".toList)) ∧
    fdNew exEnv 7 selfBase ("pipe:[42]".toList) = .ok (.pipe exFdesc 42) ∧
    fdNew exEnv 7 selfBase ("/tmp/x".toList) = .ok (.path exFdesc ("/tmp/x".toList)) := by
  have h := fdNew_classification exEnv 7 selfBase exFdesc (by decide)
  refine ⟨?_, ?_, ?_⟩
  · have ha := h.1 ("anon_inode:[eventfd]".toList) (by decide)
    rw [ha]
    decide
  · have hp := h.2.1 ("42".toList) 42 (by decide)
    have heq : "pipe:[42]".toList = "pipe:[".toList ++ "42".toList ++ "]".toList := by
      decide
    rw [heq]
    exact hp
  · refine h.2.2.2.1 ("/tmp/x".toList) (by decide) ?_
    intro δ hδ hgt
    rw [show goIndex (":[".toList) ("/tmp/x".toList) = none from by decide] at hδ
    cases hδ

/-!
## Directory scanner error policy (claim C6)
-/

/-- C6: The scan fails exactly when opening or reading the fd
directory fails (and it propagates that error); a failing individual
entry construction never fails the scan — the entry is dropped and the
scan of the remaining entries is unchanged. -/
theorem filedescriptors_error_policy :
    (∀ (env : ScanEnv) e, env.openDir = .error e → filedescriptors env = .error e) ∧
    (∀ (env : ScanEnv) dir e, env.openDir = .ok dir → dir.entries = .error e →
      filedescriptors env = .error e) ∧
    (∀ env : ScanEnv, (∃ l, filedescriptors env = .ok l) ↔
      (∃ dir names, env.openDir = .ok dir ∧ dir.entries = .ok names)) ∧
    (∀ (dirFd : Int) (construct : Int → Except GoError Fd) (pre post : List Str)
        (bad : Str) (fd : Int) (e : GoError),
      goAtoi bad = .ok fd → fd ≠ dirFd → construct fd = .error e →
      scanEntries dirFd construct (pre ++ bad :: post)
        = scanEntries dirFd construct (pre ++ post)) := by
  refine ⟨?_, ?_, ?_, ?_⟩
  · intro env e h
    simp [filedescriptors, h]
  · intro env dir e h1 h2
    simp [filedescriptors, h1, h2]
  · intro env
    constructor
    · rintro ⟨l, hl⟩
      cases h1 : env.openDir with
      | error e => simp [filedescriptors, h1] at hl
      | ok dir =>
        cases h2 : dir.entries with
        | error e => simp [filedescriptors, h1, h2] at hl
        | ok names => exact ⟨dir, names, rfl, h2⟩
    · rintro ⟨dir, names, h1, h2⟩
      exact ⟨scanEntries dir.dirFd env.construct names, by simp [filedescriptors, h1, h2]⟩
  · intro dirFd construct pre post bad fd e hAtoi hne hcon
    simp [scanEntries, List.filterMap_append, List.filterMap_cons, hAtoi, hne, hcon]

/-- A per-entry constructor that fails for fd 5 only. -/
def exConstruct : Int → Except GoError Fd :=
  fun n => if n = 5 then .error (.osErr "gone") else .ok (.pipe ⟨n, 0, 1⟩ 9)

/-- Witness for C6: a failing directory open propagates, and a failing
entry is dropped without disturbing the rest of the scan. -/
theorem filedescriptors_error_policy_witness :
    filedescriptors { openDir := .error (.osErr "open"), construct := exConstruct }
      = .error (.osErr "open") ∧
    scanEntries 3 exConstruct (["4".toList] ++ "5".toList :: ["6".toList])
      = scanEntries 3 exConstruct (["4".toList] ++ ["6".toList]) :=
  ⟨filedescriptors_error_policy.1 _ (.osErr "open") rfl,
   filedescriptors_error_policy.2.2.2 3 exConstruct ["4".toList] ["6".toList]
     ("5".toList) 5 (.osErr "gone") (by decide) (by decide) (by decide)⟩

/-!
## Leak matcher lemmas (claims C1, C7, C10)
-/

/-- The baseline index is the reversed keyed association list, so a
lookup hits the most recent assignment — the Go-map overwrite
semantics of `IgnoringFiledescriptors`. -/
theorem ignoreFdsIndex_eq (B : List Fd) :
    ignoreFdsIndex B = (B.map (fun b => (b.fdNo, b))).reverse := by
  suffices h : ∀ (L : List Fd) (acc : List (Int × Fd)),
      L.foldl (fun m fd => (fd.fdNo, fd) :: m) acc
        = (L.map (fun b => (b.fdNo, b))).reverse ++ acc by
    simpa using h B []
  intro L
  induction L with
  | nil => intro acc; simp
  | cons x xs ih => intro acc; simp [ih, List.append_assoc]

/-- A lookup misses exactly when no entry carries the key. -/
theorem lookup_eq_none_iff (l : List (Int × Fd)) (k : Int) :
    l.lookup k = none ↔ ∀ p ∈ l, p.1 ≠ k := by
  induction l with
  | nil => simp
  | cons p t ih =>
    obtain ⟨kp, vp⟩ := p
    rw [List.lookup_cons]
    by_cases hk : k = kp
    · subst hk
      simp
    · have hbeq : (k == kp) = false := by simpa using hk
      rw [hbeq]
      constructor
      · intro h q hq
        rcases List.mem_cons.mp hq with rfl | hq'
        · exact fun hc => hk hc.symm
        · exact ih.mp h q hq'
      · intro h
        exact ih.mpr (fun q hq => h q (List.mem_cons_of_mem _ hq))

/-- With pairwise distinct keys, a lookup returns a value exactly when
the pair is in the list. -/
theorem lookup_eq_some_iff (l : List (Int × Fd)) (h : (l.map Prod.fst).Nodup)
    (k : Int) (v : Fd) : l.lookup k = some v ↔ (k, v) ∈ l := by
  induction l with
  | nil => simp
  | cons p t ih =>
    obtain ⟨kp, vp⟩ := p
    simp only [List.map_cons, List.nodup_cons] at h
    rw [List.lookup_cons]
    by_cases hk : k = kp
    · subst hk
      rw [show (k == k) = true from by simp]
      constructor
      · intro hv
        have := Option.some.inj hv
        subst this
        exact List.mem_cons_self _ _
      · intro hmem
        rcases List.mem_cons.mp hmem with he | ht
        · rw [(Prod.mk.injEq _ _ _ _).mp he.symm |>.2]
        · exact absurd (List.mem_map_of_mem Prod.fst ht) h.1
    · have hbeq : (k == kp) = false := by simpa using hk
      rw [hbeq, ih h.2]
      constructor
      · exact fun ht => List.mem_cons_of_mem _ ht
      · intro hmem
        rcases List.mem_cons.mp hmem with he | ht
        · exact absurd ((Prod.mk.injEq _ _ _ _).mp he).1 hk
        · exact ht

/-- A lookup skips a block of entries that all carry other keys. -/
theorem lookup_append_of_keys_ne (l1 l2 : List (Int × Fd)) (k : Int)
    (h : ∀ p ∈ l1, p.1 ≠ k) :
    List.lookup k (l1 ++ l2) = List.lookup k l2 := by
  induction l1 with
  | nil => simp
  | cons p t ih =>
    obtain ⟨kp, vp⟩ := p
    rw [List.cons_append, List.lookup_cons]
    have hne : kp ≠ k := h (kp, vp) (List.mem_cons_self _ _)
    have hbeq : (k == kp) = false := by simp; exact fun hc => hne hc.symm
    rw [hbeq]
    exact ih (fun q hq => h q (List.mem_cons_of_mem _ hq))

/-- Distinct baseline fd numbers give a duplicate-free index key
column. -/
theorem index_keys_nodup (B : List Fd) (h : (B.map Fd.fdNo).Nodup) :
    ((ignoreFdsIndex B).map Prod.fst).Nodup := by
  rw [ignoreFdsIndex_eq]
  rw [List.map_reverse, List.nodup_reverse, List.map_map]
  simpa [Function.comp_def] using h

/-- Index membership in terms of baseline membership. -/
theorem mem_index_iff (B : List Fd) (k : Int) (v : Fd) :
    (k, v) ∈ ignoreFdsIndex B ↔ v ∈ B ∧ v.fdNo = k := by
  rw [ignoreFdsIndex_eq]
  rw [List.mem_reverse, List.mem_map]
  constructor
  · rintro ⟨b, hb, hpair⟩
    have h1 := ((Prod.mk.injEq _ _ _ _).mp hpair).1
    have h2 := ((Prod.mk.injEq _ _ _ _).mp hpair).2
    subst h2
    exact ⟨hb, h1⟩
  · rintro ⟨hv, hk⟩
    exact ⟨v, hv, by rw [hk]⟩

/-- `ignoringFds.Match` on an absent fd number. -/
theorem ignoringFdsMatch_eq_none (idx : List (Int × Fd)) (d : Fd)
    (h : List.lookup d.fdNo idx = none) :
    ignoringFdsMatch idx d = .ok false := by
  unfold ignoringFdsMatch
  rw [h]

/-- `ignoringFds.Match` on a present fd number. -/
theorem ignoringFdsMatch_eq_some (idx : List (Int × Fd)) (d : Fd) (b : Fd)
    (h : List.lookup d.fdNo idx = some b) :
    ignoringFdsMatch idx d = .ok (fdEqual d b) := by
  unfold ignoringFdsMatch
  rw [h]

/-- Filter-loop characterization over the user-supplied matchers: when
each matcher evaluates without error, the loop evaluates without error
and succeeds exactly when some matcher accepts the descriptor. -/
theorem matchFd_ok_char (extras : List FdMatcher) (d : Fd)
    (hok : ∀ m ∈ extras, ∃ v, m d = .ok v) :
    (∃ v, matchFd extras d = .ok v) ∧
    (matchFd extras d = .ok true ↔ ∃ m ∈ extras, m d = .ok true) := by
  induction extras with
  | nil =>
    refine ⟨⟨false, rfl⟩, ?_⟩
    simp [matchFd]
  | cons flt rest ih =>
    obtain ⟨v, hv⟩ := hok flt (List.mem_cons_self _ _)
    have ihh := ih (fun m hm => hok m (List.mem_cons_of_mem _ hm))
    cases v with
    | true =>
      have hstep : matchFd (flt :: rest) d = .ok true := by
        unfold matchFd; rw [hv]
      rw [hstep]
      refine ⟨⟨true, rfl⟩, ?_⟩
      constructor
      · intro _; exact ⟨flt, List.mem_cons_self _ _, hv⟩
      · intro _; rfl
    | false =>
      have hstep : matchFd (flt :: rest) d = matchFd rest d := by
        conv_lhs => unfold matchFd
        rw [hv]
      rw [hstep]
      refine ⟨ihh.1, ?_⟩
      rw [ihh.2]
      constructor
      · rintro ⟨m, hm, ht⟩
        exact ⟨m, List.mem_cons_of_mem _ hm, ht⟩
      · rintro ⟨m, hm, ht⟩
        rcases List.mem_cons.mp hm with rfl | hm'
        · rw [hv] at ht; simp at ht
        · exact ⟨m, hm', ht⟩

/-- Full filter-chain characterization for one descriptor: with a
duplicate-free baseline and error-free user matchers, the chain
accepts the descriptor exactly when the baseline holds an
`Equal`-matching descriptor under the same fd number or some user
matcher accepts it. -/
theorem matchFd_leak_char (B : List Fd) (extras : List FdMatcher) (d : Fd)
    (hnodup : (B.map Fd.fdNo).Nodup)
    (hok : ∀ m ∈ extras, ∃ v, m d = .ok v) :
    (∃ v, matchFd (leakFilters B extras) d = .ok v) ∧
    (matchFd (leakFilters B extras) d = .ok true ↔
      (∃ b ∈ B, b.fdNo = d.fdNo ∧ fdEqual d b = true) ∨
        (∃ m ∈ extras, m d = .ok true)) := by
  have hkeys := index_keys_nodup B hnodup
  have hext := matchFd_ok_char extras d hok
  cases hl : List.lookup d.fdNo (ignoreFdsIndex B) with
  | none =>
    have hbase := ignoringFdsMatch_eq_none _ d hl
    have hstep : matchFd (leakFilters B extras) d = matchFd extras d := by
      conv_lhs => unfold leakFilters matchFd
      rw [hbase]
    have hnomem : ¬∃ b ∈ B, b.fdNo = d.fdNo ∧ fdEqual d b = true := by
      rintro ⟨b, hb, hkey, _⟩
      have hmem : (d.fdNo, b) ∈ ignoreFdsIndex B := (mem_index_iff B d.fdNo b).mpr ⟨hb, hkey⟩
      exact (lookup_eq_none_iff (ignoreFdsIndex B) d.fdNo).mp hl (d.fdNo, b) hmem rfl
    rw [hstep]
    refine ⟨hext.1, ?_⟩
    rw [hext.2]
    constructor
    · exact Or.inr
    · rintro (hB | hx)
      · exact absurd hB hnomem
      · exact hx
  | some b =>
    have hbase := ignoringFdsMatch_eq_some _ d b hl
    have hBfact : b ∈ B ∧ b.fdNo = d.fdNo :=
      (mem_index_iff B d.fdNo b).mp ((lookup_eq_some_iff _ hkeys d.fdNo b).mp hl)
    cases he : fdEqual d b with
    | true =>
      have hstep : matchFd (leakFilters B extras) d = .ok true := by
        unfold leakFilters matchFd; rw [hbase, he]
      rw [hstep]
      refine ⟨⟨true, rfl⟩, ?_⟩
      constructor
      · intro _; exact Or.inl ⟨b, hBfact.1, hBfact.2, he⟩
      · intro _; rfl
    | false =>
      have hstep : matchFd (leakFilters B extras) d = matchFd extras d := by
        conv_lhs => unfold leakFilters matchFd
        rw [hbase, he]
      have hnoB : ¬∃ b' ∈ B, b'.fdNo = d.fdNo ∧ fdEqual d b' = true := by
        rintro ⟨b', hb', hkey', heq'⟩
        have hmem : (d.fdNo, b') ∈ ignoreFdsIndex B :=
          (mem_index_iff B d.fdNo b').mpr ⟨hb', hkey'⟩
        have hthis : List.lookup d.fdNo (ignoreFdsIndex B) = some b' :=
          (lookup_eq_some_iff _ hkeys d.fdNo b').mpr hmem
        rw [hl] at hthis
        have hbb := Option.some.inj hthis
        subst hbb
        rw [he] at heq'
        exact Bool.noConfusion heq'
      rw [hstep]
      refine ⟨hext.1, ?_⟩
      rw [hext.2]
      constructor
      · exact Or.inr
      · rintro (hB | hx)
        · exact absurd hB hnoB
        · exact hx

/-- Outer-loop characterization: with error-free filter evaluations,
the leaked accumulation succeeds and holds exactly the descriptors
that pass no filter. -/
theorem collectLeaked_char (filters : List FdMatcher) (C : List Fd)
    (hok : ∀ d ∈ C, ∃ v, matchFd filters d = .ok v) :
    ∃ leaked, collectLeaked filters C = .ok leaked ∧
      ∀ d, d ∈ leaked ↔ d ∈ C ∧ matchFd filters d = .ok false := by
  induction C with
  | nil => exact ⟨[], rfl, by simp⟩
  | cons c rest ih =>
    obtain ⟨v, hv⟩ := hok c (List.mem_cons_self _ _)
    obtain ⟨leaked, hres, hmem⟩ := ih (fun x hx => hok x (List.mem_cons_of_mem _ hx))
    cases v with
    | true =>
      refine ⟨leaked, ?_, ?_⟩
      · unfold collectLeaked
        rw [hv]
        exact hres
      · intro d
        rw [hmem d]
        constructor
        · rintro ⟨hd, hf⟩
          exact ⟨List.mem_cons_of_mem _ hd, hf⟩
        · rintro ⟨hd, hf⟩
          rcases List.mem_cons.mp hd with rfl | hd'
          · rw [hv] at hf; simp at hf
          · exact ⟨hd', hf⟩
    | false =>
      refine ⟨c :: leaked, ?_, ?_⟩
      · unfold collectLeaked
        rw [hv, hres]
      · intro d
        constructor
        · intro hd
          rcases List.mem_cons.mp hd with rfl | hd'
          · exact ⟨List.mem_cons_self _ _, hv⟩
          · obtain ⟨h1, h2⟩ := (hmem d).mp hd'
            exact ⟨List.mem_cons_of_mem _ h1, h2⟩
        · rintro ⟨hd, hf⟩
          rcases List.mem_cons.mp hd with rfl | hd'
          · exact List.mem_cons_self _ _
          · exact List.mem_cons_of_mem _ ((hmem d).mpr ⟨hd', hf⟩)

/-- C1: for a baseline snapshot (one descriptor per fd number, as one
discovery pass produces) and error-free user matchers, the leak
matcher reports a current descriptor as leaked exactly when neither
the baseline holds an `Equal`-matching descriptor under its fd number
nor any user matcher accepts it, and the overall verdict is true
exactly when the leaked list is non-empty. -/
theorem haveLeakedFds_leak_characterization (B C : List Fd)
    (extras : List FdMatcher)
    (hnodup : (B.map Fd.fdNo).Nodup)
    (hok : ∀ d ∈ C, ∀ m ∈ extras, ∃ v, m d = .ok v) :
    ∃ leaked : List Fd,
      haveLeakedFdsMatch B extras C = .ok (!leaked.isEmpty, leaked) ∧
      ∀ d, d ∈ leaked ↔ d ∈ C ∧
        ¬((∃ b ∈ B, b.fdNo = d.fdNo ∧ fdEqual d b = true) ∨
          (∃ m ∈ extras, m d = .ok true)) := by
  have hchar := fun d (hd : d ∈ C) => matchFd_leak_char B extras d hnodup (hok d hd)
  obtain ⟨leaked, hres, hmem⟩ := collectLeaked_char (leakFilters B extras) C
    (fun d hd => (hchar d hd).1)
  refine ⟨leaked, ?_, ?_⟩
  · unfold haveLeakedFdsMatch
    rw [hres]
  · intro d
    rw [hmem d]
    constructor
    · rintro ⟨hd, hf⟩
      refine ⟨hd, ?_⟩
      intro hcontra
      have hmt := ((hchar d hd).2).mpr hcontra
      rw [hf] at hmt
      simp at hmt
    · rintro ⟨hd, hny⟩
      refine ⟨hd, ?_⟩
      obtain ⟨v, hv⟩ := (hchar d hd).1
      cases v with
      | true => exact absurd ((hchar d hd).2.mp hv) hny
      | false => exact hv

/-- Witness for C1: baseline `{fd 1}`, current `{fd 1, fd 2}`, no
extra matchers; the characterization applies and the evaluation marks
exactly fd 2 as leaked. -/
theorem haveLeakedFds_leak_characterization_witness :
    (∃ leaked, haveLeakedFdsMatch [Fd.path ⟨1, 0, 1⟩ ("a".toList)]
        [] [Fd.path ⟨1, 0, 1⟩ ("a".toList), Fd.path ⟨2, 0, 1⟩ ("b".toList)]
        = .ok (!leaked.isEmpty, leaked) ∧
      ∀ d, d ∈ leaked ↔
        d ∈ [Fd.path ⟨1, 0, 1⟩ ("a".toList), Fd.path ⟨2, 0, 1⟩ ("b".toList)] ∧
        ¬((∃ b ∈ [Fd.path ⟨1, 0, 1⟩ ("a".toList)], b.fdNo = d.fdNo ∧ fdEqual d b = true) ∨
          (∃ m ∈ ([] : List FdMatcher), m d = .ok true))) ∧
    haveLeakedFdsMatch [Fd.path ⟨1, 0, 1⟩ ("a".toList)]
        [] [Fd.path ⟨1, 0, 1⟩ ("a".toList), Fd.path ⟨2, 0, 1⟩ ("b".toList)]
      = .ok (true, [Fd.path ⟨2, 0, 1⟩ ("b".toList)]) :=
  ⟨haveLeakedFds_leak_characterization _ _ [] (by decide) (by simp), by decide⟩

/-- C7: If a supplied exclusion matcher's evaluation on a descriptor of
the current snapshot returns an error — the descriptor is reached (all
earlier descriptors evaluate without error), the baseline filter does
not already exclude it, and the earlier user matchers reject it
without error — then `Match` returns exactly that error, and no
boolean leak verdict is produced. -/
theorem haveLeakedFds_error_propagation
    (B : List Fd) (E1 E2 : List FdMatcher) (m : FdMatcher)
    (Cp Cs : List Fd) (d : Fd) (e : GoError)
    (hpre : ∀ d' ∈ Cp, ∃ v, matchFd (leakFilters B (E1 ++ m :: E2)) d' = .ok v)
    (hbase : ignoringFdsMatch (ignoreFdsIndex B) d = .ok false)
    (hE1 : ∀ m' ∈ E1, m' d = .ok false)
    (herr : m d = .error e) :
    haveLeakedFdsMatch B (E1 ++ m :: E2) (Cp ++ d :: Cs) = .error e := by
  have hfd : matchFd (leakFilters B (E1 ++ m :: E2)) d = .error e := by
    have hskip : ∀ (L : List FdMatcher), (∀ m' ∈ L, m' d = .ok false) →
        matchFd (L ++ m :: E2) d = .error e := by
      intro L
      induction L with
      | nil =>
        intro _
        rw [List.nil_append]
        conv_lhs => unfold matchFd
        rw [herr]
      | cons f t ih =>
        intro hall
        have hf := hall f (List.mem_cons_self _ _)
        rw [List.cons_append]
        conv_lhs => unfold matchFd
        rw [hf]
        exact ih (fun q hq => hall q (List.mem_cons_of_mem _ hq))
    conv_lhs => unfold leakFilters matchFd
    rw [hbase]
    exact hskip E1 hE1
  have houter : ∀ (L : List Fd),
      (∀ d' ∈ L, ∃ v, matchFd (leakFilters B (E1 ++ m :: E2)) d' = .ok v) →
      collectLeaked (leakFilters B (E1 ++ m :: E2)) (L ++ d :: Cs) = .error e := by
    intro L
    induction L with
    | nil =>
      intro _
      rw [List.nil_append]
      conv_lhs => unfold collectLeaked
      rw [hfd]
    | cons c t ih =>
      intro hall
      obtain ⟨v, hv⟩ := hall c (List.mem_cons_self _ _)
      have ihh := ih (fun x hx => hall x (List.mem_cons_of_mem _ hx))
      rw [List.cons_append]
      cases v with
      | true =>
        conv_lhs => unfold collectLeaked
        rw [hv]
        exact ihh
      | false =>
        conv_lhs => unfold collectLeaked
        rw [hv, ihh]
  unfold haveLeakedFdsMatch
  rw [houter Cp hpre]

/-- Witness for C7: one erroring matcher, one current descriptor, an
empty baseline. -/
theorem haveLeakedFds_error_propagation_witness :
    haveLeakedFdsMatch [] [fun _ => .error (.msg "boom")] [Fd.path ⟨1, 0, 1⟩ []]
      = .error (.msg "boom") :=
  haveLeakedFds_error_propagation [] [] [] (fun _ => .error (.msg "boom"))
    [] [] (Fd.path ⟨1, 0, 1⟩ []) (.msg "boom") (by simp) rfl (by simp) rfl

/-- C10: If the baseline contains two descriptors with the same fd
number, only the later one is retained in the exclusion index, so a
current descriptor that is `Equal` to the earlier duplicate but not to
the later one is reported as leaked. -/
theorem ignoring_last_duplicate_wins
    (B1 B2 B3 : List Fd) (b1 b2 d : Fd)
    (h12 : b1.fdNo = b2.fdNo) (hd : d.fdNo = b2.fdNo)
    (h3 : ∀ b ∈ B3, b.fdNo ≠ b2.fdNo)
    (heq : fdEqual d b1 = true) (hne : fdEqual d b2 = false) :
    List.lookup d.fdNo (ignoreFdsIndex (B1 ++ b1 :: B2 ++ b2 :: B3)) = some b2 ∧
    haveLeakedFdsMatch (B1 ++ b1 :: B2 ++ b2 :: B3) [] [d] = .ok (true, [d]) := by
  have hindex : ignoreFdsIndex (B1 ++ b1 :: B2 ++ b2 :: B3)
      = (B3.map (fun b => (b.fdNo, b))).reverse ++
        ((b2.fdNo, b2) :: ((B2.map (fun b => (b.fdNo, b))).reverse ++
          ((b1.fdNo, b1) :: (B1.map (fun b => (b.fdNo, b))).reverse))) := by
    rw [ignoreFdsIndex_eq]
    simp [List.reverse_append, List.append_assoc]
  have hlook : List.lookup d.fdNo (ignoreFdsIndex (B1 ++ b1 :: B2 ++ b2 :: B3))
      = some b2 := by
    rw [hindex, hd]
    rw [lookup_append_of_keys_ne _ _ b2.fdNo ?hkeys]
    case hkeys =>
      intro p hp
      rw [List.mem_reverse, List.mem_map] at hp
      obtain ⟨b, hb, rfl⟩ := hp
      exact h3 b hb
    rw [List.lookup_cons]
    simp
  refine ⟨hlook, ?_⟩
  have hm : matchFd (leakFilters (B1 ++ b1 :: B2 ++ b2 :: B3) []) d = .ok false := by
    have hbase := ignoringFdsMatch_eq_some _ d b2 hlook
    conv_lhs => unfold leakFilters matchFd
    rw [hbase, hne]
    rfl
  have hcoll : collectLeaked (leakFilters (B1 ++ b1 :: B2 ++ b2 :: B3) []) [d]
      = .ok [d] := by
    conv_lhs => unfold collectLeaked
    rw [hm]
    rfl
  unfold haveLeakedFdsMatch
  rw [hcoll]
  rfl

/-- Witness for C10: the baseline holds two descriptors with fd number
5; the current descriptor equals the earlier one only and is reported
leaked. -/
theorem ignoring_last_duplicate_wins_witness :
    List.lookup (Fd.path ⟨5, 0, 1⟩ ("a".toList)).fdNo
        (ignoreFdsIndex [Fd.path ⟨5, 0, 1⟩ ("a".toList), Fd.path ⟨5, 0, 1⟩ ("b".toList)])
      = some (Fd.path ⟨5, 0, 1⟩ ("b".toList)) ∧
    haveLeakedFdsMatch [Fd.path ⟨5, 0, 1⟩ ("a".toList), Fd.path ⟨5, 0, 1⟩ ("b".toList)]
        [] [Fd.path ⟨5, 0, 1⟩ ("a".toList)]
      = .ok (true, [Fd.path ⟨5, 0, 1⟩ ("a".toList)]) :=
  ignoring_last_duplicate_wins [] [] [] (Fd.path ⟨5, 0, 1⟩ ("a".toList))
    (Fd.path ⟨5, 0, 1⟩ ("b".toList)) (Fd.path ⟨5, 0, 1⟩ ("a".toList))
    (by decide) (by decide) (by simp) (by decide) (by decide)
